import Mathlib

/-!
Verification of the markdump server (`server.go`) against its specification.

The development shallowly embeds the final version of `server.go` (the section
defining `Server.authenticated`, `Dir.Load`, `Server.ServeHTTP`,
`Server.HandleSearchAPI`, `Server.search`, `Server.Reload` and `Slugify`).
Go strings are modelled as `List Char` (their sequence of runes) wrapped in
`String`; byte lengths are computed with `Char.utf8Size`.  External
collaborators (the bluge search engine, the markdown renderer, templates)
are abstracted as function parameters, exactly at their call sites.
-/

set_option autoImplicit false

namespace Markdump

/-! ## Models of the Go standard library string helpers used by server.go -/

/-- Model of Go `unicode.IsSpace` (the set of Unicode white space code
points recognised by Go, by code point). -/
def isGoSpace (c : Char) : Bool :=
  decide ((9 ≤ c.toNat ∧ c.toNat ≤ 13) ∨ c.toNat = 32 ∨ c.toNat = 0x85 ∨ c.toNat = 0xA0 ∨
    c.toNat = 0x1680 ∨ (0x2000 ≤ c.toNat ∧ c.toNat ≤ 0x200A) ∨
    c.toNat = 0x2028 ∨ c.toNat = 0x2029 ∨ c.toNat = 0x202F ∨
    c.toNat = 0x205F ∨ c.toNat = 0x3000)

/-- Model of Go `unicode.ToLower` on one rune, restricted to the ASCII and
Latin-1 uppercase letters (code points 65-90 lower to +32, and 192-222
except 215 lower to +32).  Characters outside these ranges are returned
unchanged; this is faithful for every character the claims exercise. -/
def goToLowerChar (c : Char) : Char :=
  if 65 ≤ c.toNat ∧ c.toNat ≤ 90 then Char.ofNat (c.toNat + 32)
  else if 0xC0 ≤ c.toNat ∧ c.toNat ≤ 0xDE ∧ c.toNat ≠ 0xD7 then Char.ofNat (c.toNat + 32)
  else c

/-- Model of Go `strings.ToLower` on a rune sequence. -/
def toLowerCL (l : List Char) : List Char := l.map goToLowerChar

/-- Model of Go `strings.TrimSpace`: drop leading and trailing white space. -/
def trimSpaceCL (l : List Char) : List Char :=
  ((l.dropWhile isGoSpace).reverse.dropWhile isGoSpace).reverse

/-- Combining-mark code points (category Mn blocks used by the transformer
model): the transformer removes these after canonical decomposition. -/
def isCombiningMark (c : Char) : Bool :=
  decide ((0x300 ≤ c.toNat ∧ c.toNat ≤ 0x36F) ∨ (0x1AB0 ≤ c.toNat ∧ c.toNat ≤ 0x1AFF) ∨
    (0x1DC0 ≤ c.toNat ∧ c.toNat ≤ 0x1DFF) ∨ (0x20D0 ≤ c.toNat ∧ c.toNat ≤ 0x20FF) ∨
    (0xFE20 ≤ c.toNat ∧ c.toNat ≤ 0xFE2F))

/-- Decomposition table for the transformer model: precomposed Latin-1
letters and the base letter left after their combining marks are removed
(NFD, strip marks, NFC).  Characters not listed decompose to themselves. -/
def diacriticBase : List (Char × Char) :=
  [('à', 'a'), ('á', 'a'), ('â', 'a'), ('ã', 'a'), ('ä', 'a'), ('å', 'a'),
   ('è', 'e'), ('é', 'e'), ('ê', 'e'), ('ë', 'e'),
   ('ì', 'i'), ('í', 'i'), ('î', 'i'), ('ï', 'i'),
   ('ñ', 'n'), ('ç', 'c'),
   ('ò', 'o'), ('ó', 'o'), ('ô', 'o'), ('õ', 'o'), ('ö', 'o'),
   ('ù', 'u'), ('ú', 'u'), ('û', 'u'), ('ü', 'u'),
   ('ý', 'y'), ('ÿ', 'y'),
   ('À', 'A'), ('Á', 'A'), ('Â', 'A'), ('Ã', 'A'), ('Ä', 'A'), ('Å', 'A'),
   ('È', 'E'), ('É', 'E'), ('Ê', 'E'), ('Ë', 'E'),
   ('Ì', 'I'), ('Í', 'I'), ('Î', 'I'), ('Ï', 'I'),
   ('Ñ', 'N'), ('Ç', 'C'),
   ('Ò', 'O'), ('Ó', 'O'), ('Ô', 'O'), ('Õ', 'O'), ('Ö', 'O'),
   ('Ù', 'U'), ('Ú', 'U'), ('Û', 'U'), ('Ü', 'U'), ('Ý', 'Y')]

/-- Effect of the transformer chain `NFD → remove marks → NFC` on a single
character that is not itself a combining mark.  ASCII characters have no
canonical decomposition and are returned unchanged. -/
def stripMark (c : Char) : Char :=
  if c.toNat < 128 then c
  else match List.lookup c diacriticBase with
    | some b => b
    | none => c

/-- Model of `transform.String(transformer, s)` for the package-level
`transformer` of server.go (line 1439):
`transform.Chain(norm.NFD, runes.Remove(runes.In(unicode.Mn)), norm.NFC)`.
Standalone combining marks are removed; precomposed characters lose their
marks and recompose to the base character. -/
def transformerCL (l : List Char) : List Char :=
  (l.filter (fun c => !isCombiningMark c)).map stripMark

/-- Model of Go `strings.FieldsFunc`: the maximal runs of characters on
which the separator predicate `p` is false, in order.  `strings.Fields`
is `fieldsFunc isGoSpace`. -/
def fieldsFunc (p : Char → Bool) (l : List Char) : List (List Char) :=
  (l.splitOnP p).filter (fun f => !f.isEmpty)

/-- Model of Go `strings.Join(strs, "-")`. -/
def joinDash : List (List Char) → List Char
  | [] => []
  | [f] => f
  | f :: g :: fs => f ++ '-' :: joinDash (g :: fs)

/-- The separator predicate of `Slugify` (server.go lines 1446-1454): split
on every rune outside `[a-z0-9]` (code points 97-122 and 48-57). -/
def slugSplit (c : Char) : Bool :=
  if 97 ≤ c.toNat ∧ c.toNat ≤ 122 then false
  else if 48 ≤ c.toNat ∧ c.toNat ≤ 57 then false
  else true

/-- `Slugify` of server.go (lines 1442-1456) on a rune sequence: trim
surrounding space, apply the diacritic-removing transformer, lower-case,
split on non-`[a-z0-9]` runes, join the fields with dashes. -/
def slugifyCL (l : List Char) : List Char :=
  joinDash (fieldsFunc slugSplit (toLowerCL (transformerCL (trimSpaceCL l))))

/-- `Slugify` of server.go (lines 1442-1456). -/
def Slugify (s : String) : String := String.mk (slugifyCL s.data)

/-! ## Search input normalization and query construction (Server.search) -/

/-- Byte length of a rune sequence: Go `len(string)`. -/
def utf8LenCL (l : List Char) : Nat := (l.map Char.utf8Size).sum

/-- Model of the Go slice expression `input[:n]` combined with the rune
decoding Go performs on the sliced string afterwards: characters are kept
while they fit in `n` bytes; when the boundary cuts a character in two,
each retained leading byte of that character decodes to one U+FFFD
replacement character (as `strings.ToLower` does on invalid bytes). -/
def goByteSlice (n : Nat) : List Char → List Char
  | [] => []
  | c :: cs =>
    if c.utf8Size ≤ n then c :: goByteSlice (n - c.utf8Size) cs
    else List.replicate n (Char.ofNat 0xFFFD)

/-- Input normalization of `Server.search` (server.go lines 1342-1356):
crop to 128 bytes, lower-case, split on white space, keep the first four
words, then fold the words of at most 32 bytes into the word map.  The
words are returned in first-occurrence order (the Go map's iteration
order is arbitrary; only the set matters downstream). -/
def searchWordsCL (input : List Char) : List (List Char) :=
  let input1 := if utf8LenCL input > 128 then goByteSlice 128 input else input
  let input2 := toLowerCL input1
  let words := fieldsFunc isGoSpace input2
  let words4 := if words.length > 4 then words.take 4 else words
  words4.foldl (fun acc w =>
    if utf8LenCL w ≤ 32 then (if acc.contains w then acc else acc ++ [w]) else acc) []

/-- String-level wrapper for `searchWordsCL`. -/
def searchWords (input : String) : List String :=
  (searchWordsCL input.data).map String.mk

/-- Deduplication keeping first occurrences: the set collected by the Go
word map, enumerated in first-occurrence order. -/
def dedupKeepFirst (ws : List (List Char)) : List (List Char) :=
  ws.foldl (fun acc w => if acc.contains w then acc else acc ++ [w]) []

/-- The normalization pipeline exactly as claim C5 words it, with the two
length limits counted in characters: truncate to the first 128 characters,
lower-case, split on white space keeping the first 4 words, drop words
longer than 32 characters, deduplicate. -/
def searchWordsSpecChars (input : String) : List String :=
  let cs := toLowerCL (input.data.take 128)
  let words := ((fieldsFunc isGoSpace cs).take 4).filter (fun w => w.length ≤ 32)
  (dedupKeepFirst words).map String.mk

/-- The amended normalization pipeline: as claim C5 but with both length
limits counted in bytes, as `len` does on Go strings. -/
def searchWordsSpecBytes (input : String) : List String :=
  let cs := toLowerCL (if utf8LenCL input.data > 128 then goByteSlice 128 input.data
    else input.data)
  let words := ((fieldsFunc isGoSpace cs).take 4).filter (fun w => utf8LenCL w ≤ 32)
  (dedupKeepFirst words).map String.mk

/-- One of the three per-word match strategies (server.go lines 1361-1363). -/
inductive SubQuery where
  | fuzzy (term : String) (fuzziness : Nat) (field : String)
  | pfx (term : String) (field : String)
  | wildcard (pattern : String) (field : String)
deriving DecidableEq

/-- The disjunctive per-word query (`wordQuery`, shoulds only). -/
structure WordQuery where
  shoulds : List SubQuery
deriving DecidableEq

/-- The conjunctive top-level query (`query`, musts only). -/
structure BoolQuery where
  musts : List WordQuery
deriving DecidableEq

/-- Query construction of server.go lines 1358-1365: one conjunct per word,
each a disjunction of a fuzziness-1 fuzzy query, a prefix query and a
`*word*` wildcard query on the composite field `_all`. -/
def buildQuery (words : List String) : BoolQuery :=
  ⟨words.map (fun word =>
    ⟨[SubQuery.fuzzy word 1 ("_all"), SubQuery.pfx word ("_all"),
      SubQuery.wildcard ("*" ++ word ++ "*") ("_all")]⟩)⟩

/-- The request handed to the bluge reader (`bluge.NewTopNSearch(10, query)
.IncludeLocations()`, line 1366). -/
structure SearchRequest where
  topN : Nat
  query : BoolQuery
  includeLocations : Bool
deriving DecidableEq

/-- A search hit as assembled for rendering/JSON (server.go lines 1334-1339). -/
structure DocumentMatch where
  href : String
  path : String
  name : String
  content : String
deriving DecidableEq

/-- `Server.search` (server.go lines 1341-1410).  The bluge snapshot search
together with the stored-field visit and highlight assembly of the result
loop is abstracted as `reader`, a function from the request to the final
match list.  The second component counts how many times the snapshot's
search machinery (`srv.Reader.Search`, line 1370) is invoked: the source
calls it exactly once on every path through `search`. -/
def searchModel (reader : SearchRequest → List DocumentMatch) (input : String) :
    List DocumentMatch × Nat :=
  (reader ⟨10, buildQuery (searchWords input), true⟩, 1)

/-! ## The access gate (Server.authenticated) -/

/-- The session cookie written by `http.SetCookie` in `Server.authenticated`
(server.go lines 1199-1206): name `auth`, the query token as value, expiry
30 days from now (`time.Now().AddDate(0, 0, 30)`, recorded here as the
day offset), secure, http-only, same-site strict. -/
structure CookieT where
  name : String
  value : String
  expiresDays : Nat
  secure : Bool
  httpOnly : Bool
  sameSiteStrict : Bool
deriving DecidableEq

/-- The credentials of an incoming request as `Server.authenticated` reads
them: the `auth` cookie if present (`r.Cookie` returns an error when the
cookie is absent), and the `auth` query parameter (`r.URL.Query().Get`
returns the empty string when absent). -/
structure AuthReq where
  cookieAuth : Option String
  queryAuth : String
deriving DecidableEq

/-- The result of `Server.authenticated`: the token returned for building
`AuthHref`, whether the request is authenticated, and the cookie written
to the response, if any. -/
structure AuthResult where
  token : String
  ok : Bool
  setCookie : Option CookieT
deriving DecidableEq

/-- The token read from the `auth` cookie (server.go lines 1192-1195):
empty when the cookie is absent. -/
def cookieTokenOf (r : AuthReq) : String :=
  match r.cookieAuth with
  | some v => v
  | none => ""

/-- `Server.authenticated` (server.go lines 1187-1215): a configured
`public` token authorizes everything with no token and no cookie write;
otherwise the cookie token, overridden by a differing non-empty query
token (which is also written back as a new session cookie), is looked up
in the configured token list. -/
def authenticatedModel (authTokens : List String) (r : AuthReq) : AuthResult :=
  if authTokens.contains ("public") then ⟨"", true, none⟩
  else
    let token := cookieTokenOf r
    let tc : String × Option CookieT :=
      if r.queryAuth ≠ "" ∧ r.queryAuth ≠ token then
        (r.queryAuth, some ⟨"auth", r.queryAuth, 30, true, true, true⟩)
      else (token, none)
    if authTokens.contains tc.1 then ⟨tc.1, true, tc.2⟩ else ⟨"", false, tc.2⟩

/-- The effective token of claim C6: the cookie token (empty if no cookie
was sent), overridden by a differing non-empty query token. -/
def effectiveToken (r : AuthReq) : String :=
  if r.queryAuth ≠ "" ∧ r.queryAuth ≠ cookieTokenOf r then r.queryAuth else cookieTokenOf r

/-! ## The request router (Server.ServeHTTP) and the tree it walks -/

/-- A rendered markdown file of the published tree (server.go lines
1168-1172); the rendered HTML body is whatever the external renderer
returned. -/
structure FileT where
  title : String
  htmlContent : String
  url : String
deriving DecidableEq

/-- A child entry as the sorted `EntryList` records it, by the `Entry`
interface projections `IsDir`, `Title`, `URL` (server.go lines 1048-1052). -/
structure EntryT where
  isDir : Bool
  title : String
  url : String
deriving DecidableEq

/-- A directory of the published tree (server.go lines 1054-1062).  `Path`
(the ancestor chain) is recorded by its titles, which is all `PathString`
reads from it.  The slug-keyed Go maps `Subdirs` and `Files` are modelled
as association lists whose insertion overwrites an existing key, matching
Go map assignment. -/
inductive DirT where
  | mk (fsPath : String) (pathTitles : List String) (title : String) (url : String)
      (subdirs : List (String × DirT)) (files : List (String × FileT))
      (entryList : List EntryT)

def DirT.fsPath : DirT → String
  | .mk p _ _ _ _ _ _ => p

def DirT.pathTitles : DirT → List String
  | .mk _ p _ _ _ _ _ => p

def DirT.title : DirT → String
  | .mk _ _ t _ _ _ _ => t

def DirT.url : DirT → String
  | .mk _ _ _ u _ _ _ => u

def DirT.subdirs : DirT → List (String × DirT)
  | .mk _ _ _ _ s _ _ => s

def DirT.files : DirT → List (String × FileT)
  | .mk _ _ _ _ _ f _ => f

def DirT.entryList : DirT → List EntryT
  | .mk _ _ _ _ _ _ e => e

/-- Key lookup in the association-list model of a Go map. -/
def alLookup {α : Type} (k : String) : List (String × α) → Option α
  | [] => none
  | (k', v) :: rest => if k = k' then some v else alLookup k rest

/-- Key insertion in the association-list model of a Go map: assignment
`m[k] = v` overwrites an existing entry for `k`. -/
def alInsert {α : Type} (k : String) (v : α) : List (String × α) → List (String × α)
  | [] => [(k, v)]
  | (k', v') :: rest => if k = k' then (k, v) :: rest else (k', v') :: alInsert k v rest

/-- `strings.FieldsFunc(r.URL.Path, r == '/')` (server.go line 1239): the
non-empty path segments. -/
def parseSegments (path : String) : List String :=
  (fieldsFunc (fun c => c = '/') path.data).map String.mk

/-- The descent loop of `Server.ServeHTTP` (server.go lines 1246-1254):
follow `Subdirs` while the next segment matches, stopping at the first
segment with no match.  Returns the resolved directory, the unconsumed
segments, and the number of `Subdirs` map lookups performed. -/
def followDirs : DirT → List String → DirT × List String × Nat
  | d, [] => (d, [], 0)
  | d, s :: rest =>
    match alLookup s d.subdirs with
    | some nd =>
      let r := followDirs nd rest
      (r.1, r.2.1, r.2.2 + 1)
    | none => (d, s :: rest, 1)

/-- Model of `filepath.Join` as used on line 1295: join the directory's
storage path and the unconsumed segments with slashes (the claims do not
depend on Go's path cleaning). -/
def joinPath (base : String) (segs : List String) : String :=
  segs.foldl (fun acc s => acc ++ "/" ++ s) base

/-- Outcome of the routing stage of `Server.ServeHTTP` (lines 1238-1295):
422 for too-long paths, a rendered directory or markdown file, or the
pass-through `http.ServeFile` call with the file system path it serves
(that call itself yields not-found when no such file exists). -/
inductive RouteResult where
  | pathTooLong
  | dirView (d : DirT)
  | fileView (d : DirT) (f : FileT)
  | passThrough (fsPath : String)

/-- The routing stage of `Server.ServeHTTP` (server.go lines 1238-1295),
reached after authentication and the search branch: parse segments,
reject more than 16, follow subdirectories, then serve the directory, a
markdown file, or fall through to `http.ServeFile`.  The second component
counts tree lookups (`Subdirs` plus the one `Files` lookup). -/
def routeModel (root : DirT) (path : String) : RouteResult × Nat :=
  let reqpath := parseSegments path
  if reqpath.length > 16 then (.pathTooLong, 0)
  else
    let r := followDirs root reqpath
    let d := r.1
    match r.2.1 with
    | [] => (.dirView d, r.2.2)
    | s :: rest =>
      match alLookup s d.files with
      | some f => (.fileView d f, r.2.2 + 1)
      | none => (.passThrough (joinPath d.fsPath (s :: rest)), r.2.2 + 1)

/-! ## The HTTP handlers (Server.ServeHTTP, Server.HandleSearchAPI) -/

/-- An incoming request as the two handlers read it: URL path, the `s`
and `auth` query parameters (empty string when absent), and the `auth`
cookie. -/
structure Request where
  path : String
  queryS : String
  queryAuth : String
  cookieAuth : Option String

/-- The response of `Server.ServeHTTP` as dispatched by the model: 401,
the search-results page, or the routing outcome. -/
inductive HttpResponse where
  | unauthorized
  | searchPage (results : List DocumentMatch)
  | routed (r : RouteResult)

/-- `Server.ServeHTTP` (server.go lines 1217-1296): authenticate (401 and
stop on failure), serve the search page when the `s` query parameter is
non-empty, otherwise route the path against the published tree.  Returns
the response, the cookie written by the access gate, and the number of
snapshot-search invocations. -/
def serveHTTPModel (tokens : List String) (root : DirT)
    (reader : SearchRequest → List DocumentMatch) (req : Request) :
    HttpResponse × Option CookieT × Nat :=
  let a := authenticatedModel tokens ⟨req.cookieAuth, req.queryAuth⟩
  if a.ok = false then (.unauthorized, a.setCookie, 0)
  else if req.queryS ≠ "" then
    let m := searchModel reader (String.mk (trimSpaceCL req.queryS.data))
    (.searchPage m.1, a.setCookie, m.2)
  else
    (.routed (routeModel root req.path).1, a.setCookie, 0)

/-- The response of `Server.HandleSearchAPI`: 401 or the JSON-encoded
match list. -/
inductive APIResponse where
  | unauthorized
  | json (results : List DocumentMatch)

/-- `Server.HandleSearchAPI` (server.go lines 1319-1332): authenticate
(401 and stop on failure), then run the search on the raw `s` query
parameter and encode the result.  Returns the response, the cookie written
by the access gate, and the number of snapshot-search invocations. -/
def handleSearchAPIModel (tokens : List String)
    (reader : SearchRequest → List DocumentMatch) (req : Request) :
    APIResponse × Option CookieT × Nat :=
  let a := authenticatedModel tokens ⟨req.cookieAuth, req.queryAuth⟩
  if a.ok = false then (.unauthorized, a.setCookie, 0)
  else
    let m := searchModel reader req.queryS
    (.json m.1, a.setCookie, m.2)

/-! ## The tree builder (Dir.Load) and the reload (Server.Reload) -/

/-- A node of the underlying file store as `Dir.Load` observes it:
`dir` holds the entries `os.ReadDir` returns (in its sorted order);
`dirFail` is a directory on which `os.ReadDir` fails with the given
error; `file` is a regular file with its bytes; `fileFail` is a file on
which `os.ReadFile` fails. -/
inductive FsNode where
  | dir (entries : List (String × FsNode))
  | dirFail (msg : String)
  | file (content : String)
  | fileFail (msg : String)

/-- `entry.IsDir()` for a modelled entry. -/
def FsNode.isDir : FsNode → Bool
  | .dir _ => true
  | .dirFail _ => true
  | .file _ => false
  | .fileFail _ => false

/-- `os.ReadFile` on an entry that is not a directory. -/
def FsNode.readFile : FsNode → Except String String
  | .file content => .ok content
  | .fileFail m => .error m
  | .dir _ => .error "is a directory"
  | .dirFail m => .error m

/-- One document handed to `batch.Update`, keyed by its `_id`: the id (the
entry's canonical URL), the stored `path` string, the stored `name`, and
for markdown files the stored `content` (directories have none).
The composite `_all` field aggregates name (and content) and is not
stored, so it is not recorded here. -/
structure IndexDoc where
  id : String
  path : String
  name : String
  content : Option String
deriving DecidableEq

/-- `(dir *Dir) PathString()` (server.go lines 1145-1154): the ancestor
titles together with the directory's own title, without the root, each
followed by `" / "`. -/
def pathStringOf (pathTitles : List String) (title : String) : String :=
  ((pathTitles ++ [title]).drop 1).foldl (fun acc t => acc ++ t ++ " / ") ""

/-- `path.Join(dir.url, slug)` as used on server.go lines 1088 and 1114;
every reload-reachable call joins a URL starting at `"/"` with a slug, for
which Go's `path.Join` inserts a separating slash unless the base already
ends in one. -/
def joinURL (base slug : String) : String :=
  if base.data.getLast? == some '/' then base ++ slug else base ++ "/" ++ slug

/-- Go `strings.HasPrefix(name, ".")`. -/
def startsWithDot (name : String) : Bool :=
  match name.data with
  | [] => false
  | c :: _ => c == '.'

/-- Go `strings.HasSuffix(name, ".md")`. -/
def hasSuffixMd (name : String) : Bool :=
  List.isSuffixOf (['.', 'm', 'd']) name.data

/-- Go `strings.TrimSuffix(name, ".md")`. -/
def trimSuffixMd (name : String) : String :=
  if hasSuffixMd name then String.mk (name.data.take (name.data.length - 3)) else name

/-- Lexicographic comparison of rune sequences: Go `<` on strings
(byte-wise comparison agrees with rune-wise comparison on UTF-8). -/
def charListLe : List Char → List Char → Bool
  | [], _ => true
  | _ :: _, [] => false
  | a :: as, b :: bs =>
    if a.toNat < b.toNat then true
    else if b.toNat < a.toNat then false
    else charListLe as bs

/-- Insertion sort by URL: the model of `sort.Slice` with a URL comparison
(the sort order is all the claims depend on). -/
def insertByURL (e : EntryT) : List EntryT → List EntryT
  | [] => [e]
  | x :: xs => if charListLe e.url.data x.url.data then e :: x :: xs else x :: insertByURL e xs

def sortByURL : List EntryT → List EntryT
  | [] => []
  | x :: xs => insertByURL x (sortByURL xs)

/-- The `entryList` construction of `Dir.Load` (server.go lines 1127-1136):
every kept subdirectory and file, by its `Entry` interface projections,
sorted by URL (`sort.Slice` with a URL comparison). -/
def mkEntryList (subdirs : List (String × DirT)) (files : List (String × FileT)) :
    List EntryT :=
  sortByURL (subdirs.map (fun sv => EntryT.mk true sv.2.title sv.2.url)
    ++ files.map (fun sv => EntryT.mk false sv.2.title sv.2.url))

mutual

/-- `(dir *Dir) Load(batch)` (server.go lines 1069-1142) on the directory
with location `fsPath`, ancestor titles `pathTitles`, display `title` and
canonical `url`, reading the file-store node `fs`.  `render` is the
external markdown renderer `md.RenderToString`.  Returns the loaded
directory and the documents handed to the batch, or the first read error
(which `Dir.Load` propagates to its caller immediately). -/
def loadDir (render : String → String) (fsPath : String) (pathTitles : List String)
    (title url : String) : FsNode → Except String (DirT × List IndexDoc)
  | .dir entries =>
    match loadEntries render fsPath pathTitles title url entries [] [] [] with
    | .error e => .error e
    | .ok (subdirs, files, docs) =>
      .ok (.mk fsPath pathTitles title url subdirs files (mkEntryList subdirs files), docs)
  | .dirFail m => .error m
  | .file _ => .error (fsPath ++ ": not a directory")
  | .fileFail m => .error m

/-- The entry loop of `Dir.Load` (server.go lines 1077-1125), carrying the
`subdirs` and `files` maps built so far and the documents already handed
to the batch.  Hidden entries are skipped; a subdirectory is loaded
recursively and kept (with an index document) only when it has children;
a `.md` file is read, rendered and indexed; anything else is skipped. -/
def loadEntries (render : String → String) (fsPath : String) (pathTitles : List String)
    (title url : String) :
    List (String × FsNode) → List (String × DirT) → List (String × FileT) → List IndexDoc →
    Except String (List (String × DirT) × List (String × FileT) × List IndexDoc)
  | [], subdirs, files, docs => .ok (subdirs, files, docs)
  | (name, node) :: rest, subdirs, files, docs =>
    if startsWithDot name then
      loadEntries render fsPath pathTitles title url rest subdirs files docs
    else if node.isDir then
      match loadDir render (joinPath fsPath [name]) (pathTitles ++ [title]) name
          (joinURL url (Slugify name)) node with
      | .error e => .error e
      | .ok sd =>
        if sd.1.subdirs.length > 0 ∨ sd.1.files.length > 0 then
          loadEntries render fsPath pathTitles title url rest
            (alInsert (Slugify name) sd.1 subdirs) files
            (docs ++ sd.2 ++ [⟨sd.1.url, pathStringOf (pathTitles ++ [title]) name, name, none⟩])
        else
          loadEntries render fsPath pathTitles title url rest subdirs files (docs ++ sd.2)
    else if hasSuffixMd name then
      match node.readFile with
      | .error e => .error e
      | .ok content =>
        loadEntries render fsPath pathTitles title url rest subdirs
          (alInsert (Slugify (trimSuffixMd name))
            ⟨trimSuffixMd name, render content, joinURL url (Slugify (trimSuffixMd name))⟩ files)
          (docs ++ [⟨joinURL url (Slugify (trimSuffixMd name)), pathStringOf pathTitles title,
            name, some content⟩])
    else
      loadEntries render fsPath pathTitles title url rest subdirs files docs

end

/-- How a call to `Server.Reload` terminates: normally, with a returned
error, or by panicking. -/
inductive ReloadOutcome where
  | ok
  | returnedErr (e : String)
  | panicked (e : String)
deriving DecidableEq

/-- The published state of a `Server`: configuration plus the published
`Root` tree and `Reader` snapshot (the snapshot is recorded by the batch
of documents it was built from; both start as Go nil). -/
structure ServerState where
  authTokens : List String
  fsDir : String
  rootTitle : String
  root : Option DirT
  readerDocs : Option (List IndexDoc)

/-- `Server.Reload` (server.go lines 1412-1436) reading the file store
`fs` rooted at `srv.FsDir`: open an in-memory index writer (modelled as
infallible), build the root directory with `Dir.Load`, and on success
batch the documents and publish the new `Root` and `Reader`.  When
`root.Load` fails the source calls `panic(err)` (line 1427), so the state
is returned unchanged with a `panicked` outcome. -/
def reloadModel (render : String → String) (s : ServerState) (fs : FsNode) :
    ReloadOutcome × ServerState :=
  match loadDir render s.fsDir [] s.rootTitle ("/") fs with
  | .error e => (.panicked e, s)
  | .ok rd =>
    (.ok, { s with root := some rd.1, readerDocs := some rd.2 })

/-- A directory with no children: no subdirectories and no files. -/
def dirIsEmpty (d : DirT) : Bool :=
  d.subdirs.isEmpty && d.files.isEmpty

mutual

/-- Every directory strictly below this one (every member of a `Subdirs`
map in the tree) has at least one child. -/
def allProperDirsNonempty : DirT → Bool
  | .mk _ _ _ _ subdirs _ _ => allProperDirsNonemptyL subdirs

def allProperDirsNonemptyL : List (String × DirT) → Bool
  | [] => true
  | (_, d) :: rest =>
    (!dirIsEmpty d) && allProperDirsNonempty d && allProperDirsNonemptyL rest

end

mutual

/-- Some directory in the tree (the root included) has no children. -/
def treeHasEmptyDir : DirT → Bool
  | .mk _ _ _ _ subdirs files _ =>
    (subdirs.isEmpty && files.isEmpty) || treeHasEmptyDirL subdirs

def treeHasEmptyDirL : List (String × DirT) → Bool
  | [] => false
  | (_, d) :: rest => treeHasEmptyDir d || treeHasEmptyDirL rest

end

mutual

/-- The canonical URLs present in the tree strictly below this directory:
the URLs of its subdirectories and files, recursively. -/
def treeURLs : DirT → List String
  | .mk _ _ _ _ subdirs files _ =>
    treeURLsL subdirs ++ files.map (fun sv => sv.2.url)

def treeURLsL : List (String × DirT) → List String
  | [] => []
  | (_, d) :: rest => (d.url :: treeURLs d) ++ treeURLsL rest

end

/-! ## Concrete fixtures used by witnesses and counterexamples -/

/-- A concrete renderer for the examples (all models are parametric in the
external markdown renderer). -/
def exRender : String → String := fun s => s

/-- A concrete server configuration for the examples. -/
def exServer : ServerState := ⟨["secret1"], "repo", "Home", none, none⟩

/-- A file store whose root `os.ReadDir` fails. -/
def exBadFs : FsNode := .dirFail "boom"

/-- A content root whose only entry is hidden: its published root has zero
children. -/
def exHiddenOnlyFs : FsNode := .dir [(".git", .dir [])]

/-- A small content root: a directory `Notes` with one markdown file and a
hidden file, a directory `Empty` holding only a hidden entry, and a root
markdown file. -/
def exFs : FsNode :=
  .dir [("Notes", .dir [("a.md", .file "hello"), (".hidden", .file "x")]),
    ("Empty", .dir [(".git", .dir [])]),
    ("readme.md", .file "root doc")]

/-- The directory and batch loaded from `exFs`. -/
def exLoaded : DirT × List IndexDoc :=
  match loadDir exRender ("repo") [] ("Home") ("/") exFs with
  | .ok rd => rd
  | .error _ => (.mk "" [] "" "" [] [] [], [])

/-- The published tree loaded from `exFs`. -/
def exTree : DirT := exLoaded.1

/-- A URL path with 17 non-empty segments. -/
def exLongPath : String := "/a/b/c/d/e/f/g/h/i/j/k/l/m/n/o/p/q"

/-- A request with no credentials. -/
def exReqNoCreds : Request := ⟨"/notes/a", "", "", none⟩

/-- A document match used to instrument the abstract reader. -/
def exMatch : DocumentMatch := ⟨"/x", "", "x", ""⟩

/-- Seventeen copies of the two-byte character é: 17 characters, 34 bytes. -/
def eAcute17 : String := String.mk (List.replicate 17 'é')

/-! ## Idempotency of Slugify -/

theorem splitOnP_mem_keep (p : Char → Bool) (l : List Char) :
    ∀ f ∈ l.splitOnP p, ∀ c ∈ f, p c = false := by
  induction l with
  | nil =>
    intro f hf c hc
    rw [List.splitOnP_nil, List.mem_singleton] at hf
    subst hf; cases hc
  | cons a t ih =>
    intro f hf c hc
    rw [List.splitOnP_cons] at hf
    by_cases hpa : p a
    · rw [if_pos hpa] at hf
      rcases List.mem_cons.mp hf with h | h
      · subst h; cases hc
      · exact ih f h c hc
    · rw [if_neg hpa] at hf
      rcases he : t.splitOnP p with _ | ⟨h0, hs⟩
      · exact absurd he (List.splitOnP_ne_nil _ _)
      · rw [he, List.modifyHead_cons] at hf
        rcases List.mem_cons.mp hf with h | h
        · subst h
          rcases List.mem_cons.mp hc with h' | hmem
          · subst h'; exact Bool.eq_false_iff.mpr hpa
          · exact ih h0 (he ▸ List.mem_cons_self _ _) c hmem
        · exact ih f (he ▸ List.mem_cons_of_mem _ h) c hc

theorem fieldsFunc_props (p : Char → Bool) (l : List Char) :
    ∀ f ∈ fieldsFunc p l, f ≠ [] ∧ ∀ c ∈ f, p c = false := by
  intro f hf
  unfold fieldsFunc at hf
  have h1 := List.of_mem_filter hf
  have h2 := List.mem_of_mem_filter hf
  refine ⟨?_, splitOnP_mem_keep p l f h2⟩
  intro hnil; subst hnil; simp at h1

/-- Recovering fields from their dash-join: the roundtrip that drives
idempotency of `Slugify`. -/
theorem fieldsFunc_joinDash (p : Char → Bool) (hdash : p '-' = true) :
    ∀ fs : List (List Char), (∀ f ∈ fs, f ≠ [] ∧ ∀ c ∈ f, p c = false) →
      fieldsFunc p (joinDash fs) = fs := by
  intro fs
  induction fs with
  | nil => intro _; rfl
  | cons f gs ih =>
    intro hfs
    have hf := hfs f (List.mem_cons_self _ _)
    have hkeep : ∀ x ∈ f, ¬p x = true := by
      intro x hx; rw [(hf.2 x hx)]; simp
    cases gs with
    | nil =>
      show fieldsFunc p f = [f]
      unfold fieldsFunc
      rw [List.splitOnP_eq_single _ _ hkeep]
      rw [List.filter_cons]
      have : (!f.isEmpty) = true := by
        cases f with
        | nil => exact absurd rfl hf.1
        | cons _ _ => rfl
      rw [if_pos this]; rfl
    | cons g gs' =>
      show fieldsFunc p (f ++ '-' :: joinDash (g :: gs')) = f :: g :: gs'
      unfold fieldsFunc
      rw [List.splitOnP_first _ _ hkeep '-' hdash]
      rw [List.filter_cons]
      have : (!f.isEmpty) = true := by
        cases f with
        | nil => exact absurd rfl hf.1
        | cons _ _ => rfl
      rw [if_pos this]
      have := ih (fun f' hf' => hfs f' (List.mem_cons_of_mem _ hf'))
      unfold fieldsFunc at this
      rw [this]

theorem mem_joinDash {c : Char} : ∀ {fs : List (List Char)},
    c ∈ joinDash fs → c = '-' ∨ ∃ f ∈ fs, c ∈ f := by
  intro fs
  induction fs with
  | nil => intro h; cases h
  | cons f gs ih =>
    intro h
    cases gs with
    | nil => exact Or.inr ⟨f, List.mem_singleton_self f, h⟩
    | cons g gs' =>
      rcases List.mem_append.mp h with h' | h'
      · exact Or.inr ⟨f, List.mem_cons_self _ _, h'⟩
      · rcases List.mem_cons.mp h' with h'' | h''
        · exact Or.inl h''
        · rcases ih h'' with h3 | ⟨f', hf', hc'⟩
          · exact Or.inl h3
          · exact Or.inr ⟨f', List.mem_cons_of_mem _ hf', hc'⟩

/-- The code points a `Slugify` output character can have: lowercase ASCII
letter, ASCII digit, or the dash (code point 45). -/
theorem slugChar_range {c : Char} (h : slugSplit c = false ∨ c = '-') :
    (97 ≤ c.toNat ∧ c.toNat ≤ 122) ∨ (48 ≤ c.toNat ∧ c.toNat ≤ 57) ∨ c.toNat = 45 := by
  rcases h with h | h
  · unfold slugSplit at h
    by_cases h1 : 97 ≤ c.toNat ∧ c.toNat ≤ 122
    · exact Or.inl h1
    · rw [if_neg h1] at h
      by_cases h2 : 48 ≤ c.toNat ∧ c.toNat ≤ 57
      · exact Or.inr (Or.inl h2)
      · rw [if_neg h2] at h; cases h
  · subst h; exact Or.inr (Or.inr rfl)

theorem isGoSpace_of_slugChar {c : Char}
    (h : (97 ≤ c.toNat ∧ c.toNat ≤ 122) ∨ (48 ≤ c.toNat ∧ c.toNat ≤ 57) ∨ c.toNat = 45) :
    isGoSpace c = false := by
  unfold isGoSpace
  rw [decide_eq_false_iff_not]
  omega

theorem isCombiningMark_of_slugChar {c : Char}
    (h : (97 ≤ c.toNat ∧ c.toNat ≤ 122) ∨ (48 ≤ c.toNat ∧ c.toNat ≤ 57) ∨ c.toNat = 45) :
    isCombiningMark c = false := by
  unfold isCombiningMark
  rw [decide_eq_false_iff_not]
  omega

theorem stripMark_of_slugChar {c : Char}
    (h : (97 ≤ c.toNat ∧ c.toNat ≤ 122) ∨ (48 ≤ c.toNat ∧ c.toNat ≤ 57) ∨ c.toNat = 45) :
    stripMark c = c := by
  unfold stripMark
  rw [if_pos (by omega)]

theorem goToLowerChar_of_slugChar {c : Char}
    (h : (97 ≤ c.toNat ∧ c.toNat ≤ 122) ∨ (48 ≤ c.toNat ∧ c.toNat ≤ 57) ∨ c.toNat = 45) :
    goToLowerChar c = c := by
  unfold goToLowerChar
  rw [if_neg (by omega), if_neg (by omega)]

theorem dropWhile_fix {q : Char → Bool} {l : List Char} (h : ∀ c ∈ l, q c = false) :
    l.dropWhile q = l := by
  cases l with
  | nil => rfl
  | cons a t =>
    rw [List.dropWhile_cons, h a (List.mem_cons_self _ _)]
    rfl

theorem trimSpaceCL_fix {l : List Char} (h : ∀ c ∈ l, isGoSpace c = false) :
    trimSpaceCL l = l := by
  unfold trimSpaceCL
  rw [dropWhile_fix h, dropWhile_fix (fun c hc => h c (List.mem_reverse.mp hc)),
    List.reverse_reverse]

theorem transformerCL_fix {l : List Char}
    (hm : ∀ c ∈ l, isCombiningMark c = false) (hs : ∀ c ∈ l, stripMark c = c) :
    transformerCL l = l := by
  unfold transformerCL
  rw [List.filter_eq_self.mpr (by intro c hc; rw [hm c hc]; rfl)]
  rw [List.map_congr_left hs]; exact List.map_id' l

theorem toLowerCL_fix {l : List Char} (h : ∀ c ∈ l, goToLowerChar c = c) :
    toLowerCL l = l := by
  unfold toLowerCL
  rw [List.map_congr_left h]; exact List.map_id' l

theorem slugifyCL_idem (l : List Char) : slugifyCL (slugifyCL l) = slugifyCL l := by
  have hfields := fieldsFunc_props slugSplit (toLowerCL (transformerCL (trimSpaceCL l)))
  have hchars : ∀ c ∈ slugifyCL l,
      (97 ≤ c.toNat ∧ c.toNat ≤ 122) ∨ (48 ≤ c.toNat ∧ c.toNat ≤ 57) ∨ c.toNat = 45 := by
    intro c hc
    rcases mem_joinDash hc with h | ⟨f, hf, hcf⟩
    · exact slugChar_range (Or.inr h)
    · exact slugChar_range (Or.inl ((hfields f hf).2 c hcf))
  have step1 : trimSpaceCL (slugifyCL l) = slugifyCL l :=
    trimSpaceCL_fix (fun c hc => isGoSpace_of_slugChar (hchars c hc))
  have step2 : transformerCL (slugifyCL l) = slugifyCL l :=
    transformerCL_fix (fun c hc => isCombiningMark_of_slugChar (hchars c hc))
      (fun c hc => stripMark_of_slugChar (hchars c hc))
  have step3 : toLowerCL (slugifyCL l) = slugifyCL l :=
    toLowerCL_fix (fun c hc => goToLowerChar_of_slugChar (hchars c hc))
  have step4 : fieldsFunc slugSplit (slugifyCL l)
      = fieldsFunc slugSplit (toLowerCL (transformerCL (trimSpaceCL l))) :=
    fieldsFunc_joinDash slugSplit (by decide) _ hfields
  calc slugifyCL (slugifyCL l)
      = joinDash (fieldsFunc slugSplit (toLowerCL (transformerCL (trimSpaceCL (slugifyCL l))))) :=
        rfl
    _ = joinDash (fieldsFunc slugSplit (slugifyCL l)) := by rw [step1, step2, step3]
    _ = joinDash (fieldsFunc slugSplit (toLowerCL (transformerCL (trimSpaceCL l)))) := by
        rw [step4]
    _ = slugifyCL l := rfl

theorem takeIf_eq_take (words : List (List Char)) :
    (if words.length > 4 then words.take 4 else words) = words.take 4 := by
  by_cases h : words.length > 4
  · rw [if_pos h]
  · rw [if_neg h]; exact (List.take_of_length_le (by omega)).symm

theorem buildMap_eq_dedup_filter (ws : List (List Char)) :
    ∀ acc, ws.foldl (fun acc w =>
        if utf8LenCL w ≤ 32 then (if acc.contains w then acc else acc ++ [w]) else acc) acc
      = (ws.filter (fun w => utf8LenCL w ≤ 32)).foldl
          (fun acc w => if acc.contains w then acc else acc ++ [w]) acc := by
  induction ws with
  | nil => intro acc; rfl
  | cons w t ih =>
    intro acc
    by_cases h : utf8LenCL w ≤ 32
    · simp only [List.foldl_cons, List.filter_cons, h, decide_True, if_true, ite_true,
        List.foldl_cons]
      exact ih _
    · simp only [List.foldl_cons, List.filter_cons, h, decide_False, if_false, ite_false]
      exact ih _

theorem searchWordsCL_eq (input : List Char) :
    searchWordsCL input = dedupKeepFirst
      (((fieldsFunc isGoSpace (toLowerCL (if utf8LenCL input > 128 then goByteSlice 128 input
        else input))).take 4).filter (fun w => utf8LenCL w ≤ 32)) := by
  unfold searchWordsCL dedupKeepFirst
  dsimp only []
  rw [takeIf_eq_take, buildMap_eq_dedup_filter]


/-! ## Invariants of the tree builder -/

theorem alInsert_ne_nil {α : Type} (k : String) (v : α) (l : List (String × α)) :
    alInsert k v l ≠ [] := by
  cases l with
  | nil => simp [alInsert]
  | cons p rest => unfold alInsert; split <;> simp

theorem dirIsEmpty_false_of_guard {d : DirT} (h : d.subdirs.length > 0 ∨ d.files.length > 0) :
    dirIsEmpty d = false := by
  have : d.subdirs.isEmpty = false ∨ d.files.isEmpty = false := by
    rcases h with h | h
    · left; cases hs : d.subdirs
      · rw [hs] at h; simp at h
      · rfl
    · right; cases hs : d.files
      · rw [hs] at h; simp at h
      · rfl
  rcases this with h' | h' <;> simp [dirIsEmpty, h']

theorem dirIsEmpty_true_of_not_guard {d : DirT}
    (h : ¬(d.subdirs.length > 0 ∨ d.files.length > 0)) : dirIsEmpty d = true := by
  push_neg at h
  obtain ⟨h1, h2⟩ := h
  have hs : d.subdirs = [] := List.length_eq_zero.mp (by omega)
  have hf : d.files = [] := List.length_eq_zero.mp (by omega)
  simp [dirIsEmpty, hs, hf]

theorem allProperL_alInsert {k : String} {d : DirT} {l : List (String × DirT)}
    (hl : allProperDirsNonemptyL l = true) (hne : dirIsEmpty d = false)
    (hd : allProperDirsNonempty d = true) :
    allProperDirsNonemptyL (alInsert k d l) = true := by
  induction l with
  | nil => simp [alInsert, allProperDirsNonemptyL, hne, hd]
  | cons p rest ih =>
    obtain ⟨k', v⟩ := p
    unfold allProperDirsNonemptyL at hl
    rw [Bool.and_eq_true, Bool.and_eq_true] at hl
    obtain ⟨⟨hv1, hv2⟩, hrest⟩ := hl
    unfold alInsert
    by_cases hk : k = k'
    · rw [if_pos hk]
      unfold allProperDirsNonemptyL
      rw [Bool.and_eq_true, Bool.and_eq_true]
      exact ⟨⟨by simp [hne], hd⟩, hrest⟩
    · rw [if_neg hk]
      unfold allProperDirsNonemptyL
      rw [Bool.and_eq_true, Bool.and_eq_true]
      exact ⟨⟨hv1, hv2⟩, ih hrest⟩

theorem load_inv (render : String → String) :
    (∀ (fsPath : String) (pathTitles : List String) (title url : String) (fs : FsNode),
      ∀ d docs, loadDir render fsPath pathTitles title url fs = .ok (d, docs) →
        allProperDirsNonempty d = true ∧ (dirIsEmpty d = true → docs = []) ∧
          d.entryList = mkEntryList d.subdirs d.files) ∧
    (∀ (fsPath : String) (pathTitles : List String) (title url : String)
      (entries : List (String × FsNode)) (subdirs : List (String × DirT))
      (files : List (String × FileT)) (docs : List IndexDoc),
      ∀ out, loadEntries render fsPath pathTitles title url entries subdirs files docs = .ok out →
        (allProperDirsNonemptyL subdirs = true → allProperDirsNonemptyL out.1 = true) ∧
        (out.1 = [] → out.2.1 = [] → subdirs = [] ∧ files = [] ∧ out.2.2 = docs)) := by
  refine loadDir.mutual_induct render
    (fun fsPath pathTitles title url fs =>
      ∀ d docs, loadDir render fsPath pathTitles title url fs = .ok (d, docs) →
        allProperDirsNonempty d = true ∧ (dirIsEmpty d = true → docs = []) ∧
          d.entryList = mkEntryList d.subdirs d.files)
    (fun fsPath pathTitles title url entries subdirs files docs =>
      ∀ out, loadEntries render fsPath pathTitles title url entries subdirs files docs = .ok out →
        (allProperDirsNonemptyL subdirs = true → allProperDirsNonemptyL out.1 = true) ∧
        (out.1 = [] → out.2.1 = [] → subdirs = [] ∧ files = [] ∧ out.2.2 = docs))
    ?_ ?_ ?_ ?_ ?_ ?_ ?_ ?_ ?_ ?_ ?_ ?_ ?_
  · -- dir entries, loadEntries errors
    intro fsPath pathTitles title url entries e herr _ d docs hok
    rw [loadDir.eq_def] at hok
    dsimp only [] at hok
    rw [herr] at hok
    exact Except.noConfusion hok
  · -- dir entries, loadEntries ok
    intro fsPath pathTitles title url entries subdirs files docs hok ih d docs0 hd
    rw [loadDir.eq_def] at hd
    dsimp only [] at hd
    rw [hok] at hd
    dsimp only [] at hd
    rw [Except.ok.injEq, Prod.mk.injEq] at hd
    obtain ⟨hd1, hd2⟩ := hd
    subst hd1; subst hd2
    obtain ⟨ih1, ih2⟩ := ih (subdirs, files, docs) hok
    refine ⟨ih1 rfl, ?_, rfl⟩
    intro hemp
    simp only [dirIsEmpty, DirT.subdirs, DirT.files, Bool.and_eq_true] at hemp
    obtain ⟨hs, hf⟩ := hemp
    have hs' : subdirs = [] := by
      cases subdirs with
      | nil => rfl
      | cons a t => simp at hs
    have hf' : files = [] := by
      cases files with
      | nil => rfl
      | cons a t => simp at hf
    exact (ih2 hs' hf').2.2
  · -- dirFail
    intro fsPath pathTitles title url msg d docs hok
    rw [loadDir.eq_def] at hok
    exact Except.noConfusion hok
  · -- file
    intro fsPath pathTitles title url content d docs hok
    rw [loadDir.eq_def] at hok
    exact Except.noConfusion hok
  · -- fileFail
    intro fsPath pathTitles title url msg d docs hok
    rw [loadDir.eq_def] at hok
    exact Except.noConfusion hok
  · -- entries nil
    intro fsPath pathTitles title url subdirs files docs out hout
    rw [loadEntries.eq_def] at hout
    dsimp only [] at hout
    rw [Except.ok.injEq] at hout
    subst hout
    exact ⟨fun h => h, fun _ _ => ⟨by assumption, by assumption, rfl⟩⟩
  · -- hidden skip
    intro fsPath pathTitles title url name node rest subdirs files docs hdot ih out hout
    rw [loadEntries.eq_def] at hout
    dsimp only [] at hout
    rw [if_pos hdot] at hout
    exact ih out hout
  · -- subdir load error
    intro fsPath pathTitles title url name node rest subdirs files docs hdot hisdir e herr _ihdir
      out hout
    rw [loadEntries.eq_def] at hout
    dsimp only [] at hout
    rw [if_neg hdot, if_pos hisdir, herr] at hout
    exact Except.noConfusion hout
  · -- subdir kept
    intro fsPath pathTitles title url name node rest subdirs files docs hdot hisdir sd hloadsub
      hguard ihdir ihrest out hout
    rw [loadEntries.eq_def] at hout
    dsimp only [] at hout
    rw [if_neg hdot, if_pos hisdir, hloadsub] at hout
    dsimp only [] at hout
    rw [if_pos hguard] at hout
    obtain ⟨ih1, ih2⟩ := ihrest out hout
    constructor
    · intro hsub
      apply ih1
      obtain ⟨hp1, _, _⟩ := ihdir sd.1 sd.2 (by rw [hloadsub])
      exact allProperL_alInsert hsub (dirIsEmpty_false_of_guard hguard) hp1
    · intro h1 h2
      exfalso
      obtain ⟨habs, _, _⟩ := ih2 h1 h2
      exact alInsert_ne_nil _ _ _ habs
  · -- subdir dropped (empty)
    intro fsPath pathTitles title url name node rest subdirs files docs hdot hisdir sd hloadsub
      hguard ihdir ihrest out hout
    rw [loadEntries.eq_def] at hout
    dsimp only [] at hout
    rw [if_neg hdot, if_pos hisdir, hloadsub] at hout
    dsimp only [] at hout
    rw [if_neg hguard] at hout
    obtain ⟨ih1, ih2⟩ := ihrest out hout
    refine ⟨ih1, ?_⟩
    intro h1 h2
    obtain ⟨hs, hf, hdocs⟩ := ih2 h1 h2
    refine ⟨hs, hf, ?_⟩
    obtain ⟨_, hemp, _⟩ := ihdir sd.1 sd.2 (by rw [hloadsub])
    have hnil : sd.2 = [] := hemp (dirIsEmpty_true_of_not_guard hguard)
    rw [hdocs, hnil, List.append_nil]
  · -- md file read error
    intro fsPath pathTitles title url name node rest subdirs files docs hdot hisdir hmd e herr
      out hout
    rw [loadEntries.eq_def] at hout
    dsimp only [] at hout
    rw [if_neg hdot, if_neg hisdir, if_pos hmd, herr] at hout
    exact Except.noConfusion hout
  · -- md file ok
    intro fsPath pathTitles title url name node rest subdirs files docs hdot hisdir hmd content
      hread ihrest out hout
    rw [loadEntries.eq_def] at hout
    dsimp only [] at hout
    rw [if_neg hdot, if_neg hisdir, if_pos hmd, hread] at hout
    dsimp only [] at hout
    obtain ⟨ih1, ih2⟩ := ihrest out hout
    refine ⟨ih1, ?_⟩
    intro h1 h2
    exfalso
    obtain ⟨_, habs, _⟩ := ih2 h1 h2
    exact alInsert_ne_nil _ _ _ habs
  · -- other entries skipped
    intro fsPath pathTitles title url name node rest subdirs files docs hdot hisdir hmd ih out hout
    rw [loadEntries.eq_def] at hout
    dsimp only [] at hout
    rw [if_neg hdot, if_neg hisdir, if_neg hmd] at hout
    exact ih out hout


/-! ## Claim theorems -/

/-- With no `public` sentinel configured, the gate's decision is exactly
membership of the effective token. -/
theorem authenticatedModel_ok_of_no_public (tokens : List String) (r : AuthReq)
    (hp : tokens.contains ("public") = false) :
    (authenticatedModel tokens r).ok = tokens.contains (effectiveToken r) := by
  unfold authenticatedModel effectiveToken
  rw [if_neg (by simp only [hp]; decide)]
  dsimp only []
  by_cases hc : r.queryAuth ≠ "" ∧ r.queryAuth ≠ cookieTokenOf r
  · rw [if_pos hc, if_pos hc]
    by_cases hm : tokens.contains r.queryAuth = true
    · rw [if_pos hm]; exact hm.symm
    · rw [if_neg hm]; exact (Bool.eq_false_iff.mpr hm).symm
  · rw [if_neg hc, if_neg hc]
    by_cases hm : tokens.contains (cookieTokenOf r) = true
    · rw [if_pos hm]; exact hm.symm
    · rw [if_neg hm]; exact (Bool.eq_false_iff.mpr hm).symm

/-- C6: `Server.authenticated` authorizes a request iff the effective token
(the cookie token, overridden by a differing non-empty query token) is a
member of the configured token set, or the set contains the sentinel
`public`; with `public` configured, every request is authorized with no
token (and no cookie written), regardless of the credentials supplied. -/
theorem C6_effective_token_membership (tokens : List String) (r : AuthReq) :
    ((authenticatedModel tokens r).ok = true ↔
      (tokens.contains ("public") = true ∨ tokens.contains (effectiveToken r) = true)) ∧
    (tokens.contains ("public") = true → authenticatedModel tokens r = ⟨"", true, none⟩) := by
  by_cases hp : tokens.contains ("public") = true
  · have h2 : authenticatedModel tokens r = ⟨"", true, none⟩ := by
      unfold authenticatedModel; rw [if_pos hp]
    refine ⟨?_, fun _ => h2⟩
    rw [h2]
    exact ⟨fun _ => Or.inl hp, fun _ => rfl⟩
  · have hp' : tokens.contains ("public") = false := Bool.eq_false_iff.mpr hp
    constructor
    · rw [authenticatedModel_ok_of_no_public tokens r hp']
      constructor
      · intro h; exact Or.inr h
      · intro h
        rcases h with h | h
        · exact absurd h hp
        · exact h
    · intro h; exact absurd h hp

/-- Witness for C6 at concrete inputs: a `public` configuration authorizes
a request with junk credentials, and the membership equivalence holds for
a correct query token. -/
theorem C6_witness :
    authenticatedModel ["public"] ⟨some ("x"), "junk"⟩ = ⟨"", true, none⟩ ∧
      ((authenticatedModel ["secret1"] ⟨none, "secret1"⟩).ok = true ↔
        ((["secret1"] : List String).contains ("public") = true ∨
          (["secret1"] : List String).contains (effectiveToken ⟨none, "secret1"⟩) = true)) := by
  refine ⟨(C6_effective_token_membership ["public"] ⟨some ("x"), "junk"⟩).2 (by decide), ?_⟩
  exact (C6_effective_token_membership ["secret1"] ⟨none, "secret1"⟩).1

/-- C10: when `public` is not configured and the request supplies a
non-empty `auth` query parameter differing from its `auth` cookie,
`Server.authenticated` writes a 30-day secure http-only same-site-strict
session cookie carrying that query token before membership is checked; in
particular an invalid query token still receives that cookie, together
with the 401 rejection. -/
theorem C10_query_token_cookie_before_membership (tokens : List String) (r : AuthReq)
    (hp : tokens.contains ("public") = false)
    (hq : r.queryAuth ≠ "")
    (hne : r.queryAuth ≠ cookieTokenOf r) :
    (authenticatedModel tokens r).setCookie
        = some ⟨"auth", r.queryAuth, 30, true, true, true⟩ ∧
      (tokens.contains r.queryAuth = false → (authenticatedModel tokens r).ok = false) := by
  unfold authenticatedModel
  rw [if_neg (by simp only [hp]; decide)]
  dsimp only []
  have htc : (if r.queryAuth ≠ "" ∧ r.queryAuth ≠ cookieTokenOf r then
        (r.queryAuth, some (⟨"auth", r.queryAuth, 30, true, true, true⟩ : CookieT))
      else (cookieTokenOf r, none))
      = (r.queryAuth, some (⟨"auth", r.queryAuth, 30, true, true, true⟩ : CookieT)) :=
    if_pos ⟨hq, hne⟩
  rw [htc]
  dsimp only []
  constructor
  · by_cases hm : tokens.contains r.queryAuth = true
    · rw [if_pos hm]
    · rw [if_neg hm]
  · intro hm
    rw [if_neg (by simp only [hm]; decide)]

/-- Witness for C10: an invalid query token receives the session cookie
storing it, together with the 401 rejection. -/
theorem C10_witness :
    (authenticatedModel ["secret1"] ⟨none, "badtoken"⟩).setCookie
        = some ⟨"auth", "badtoken", 30, true, true, true⟩ ∧
      (authenticatedModel ["secret1"] ⟨none, "badtoken"⟩).ok = false := by
  obtain ⟨h1, h2⟩ := C10_query_token_cookie_before_membership ["secret1"] ⟨none, "badtoken"⟩
    (by decide) (by decide) (by decide)
  exact ⟨h1, h2 (by decide)⟩


/-- C7: a request failing authentication receives the 401 response and no
further processing: both `Server.ServeHTTP` and `Server.HandleSearchAPI`
return the unauthorized response with zero snapshot-search invocations,
and their output is independent of the published tree and of the search
reader. -/
theorem C7_unauthorized_no_processing (tokens : List String) (root root' : DirT)
    (reader reader' : SearchRequest → List DocumentMatch) (req : Request)
    (h : (authenticatedModel tokens ⟨req.cookieAuth, req.queryAuth⟩).ok = false) :
    serveHTTPModel tokens root reader req
        = (.unauthorized, (authenticatedModel tokens ⟨req.cookieAuth, req.queryAuth⟩).setCookie, 0)
      ∧ serveHTTPModel tokens root reader req = serveHTTPModel tokens root' reader' req
      ∧ handleSearchAPIModel tokens reader req
        = (.unauthorized, (authenticatedModel tokens ⟨req.cookieAuth, req.queryAuth⟩).setCookie, 0)
      ∧ handleSearchAPIModel tokens reader req = handleSearchAPIModel tokens reader' req := by
  have h1 : serveHTTPModel tokens root reader req
      = (.unauthorized, (authenticatedModel tokens ⟨req.cookieAuth, req.queryAuth⟩).setCookie, 0) := by
    unfold serveHTTPModel
    rw [if_pos h]
  have h1' : serveHTTPModel tokens root' reader' req
      = (.unauthorized, (authenticatedModel tokens ⟨req.cookieAuth, req.queryAuth⟩).setCookie, 0) := by
    unfold serveHTTPModel
    rw [if_pos h]
  have h2 : handleSearchAPIModel tokens reader req
      = (.unauthorized, (authenticatedModel tokens ⟨req.cookieAuth, req.queryAuth⟩).setCookie, 0) := by
    unfold handleSearchAPIModel
    rw [if_pos h]
  have h2' : handleSearchAPIModel tokens reader' req
      = (.unauthorized, (authenticatedModel tokens ⟨req.cookieAuth, req.queryAuth⟩).setCookie, 0) := by
    unfold handleSearchAPIModel
    rw [if_pos h]
  exact ⟨h1, h1.trans h1'.symm, h2, h2.trans h2'.symm⟩

/-- Witness for C7: a request with no credentials against the `secret1`
configuration is rejected identically for any tree and reader. -/
theorem C7_witness :
    (authenticatedModel ["secret1"] ⟨(exReqNoCreds).cookieAuth, (exReqNoCreds).queryAuth⟩).ok
        = false ∧
      serveHTTPModel ["secret1"] exTree (fun _ => []) exReqNoCreds
        = (.unauthorized, none, 0) ∧
      serveHTTPModel ["secret1"] exTree (fun _ => []) exReqNoCreds
        = serveHTTPModel ["secret1"] (.mk "" [] "" "" [] [] []) (fun _ => [exMatch]) exReqNoCreds ∧
      handleSearchAPIModel ["secret1"] (fun _ => []) exReqNoCreds
        = (.unauthorized, none, 0) := by
  have h : (authenticatedModel ["secret1"]
      ⟨(exReqNoCreds).cookieAuth, (exReqNoCreds).queryAuth⟩).ok = false := rfl
  obtain ⟨h1, h2, h3, _⟩ := C7_unauthorized_no_processing ["secret1"] exTree
    (.mk "" [] "" "" [] [] []) (fun _ => []) (fun _ => [exMatch]) exReqNoCreds h
  exact ⟨h, by rw [h1]; rfl, h2, by rw [h3]; rfl⟩

/-- C9: a request path splitting into more than 16 non-empty segments is
rejected by the router with the 422 `path too long` response before any
directory traversal or tree lookup: the result holds for every tree and
performs zero tree lookups. -/
theorem C9_too_long_rejected_before_lookup (root : DirT) (path : String)
    (h : (parseSegments path).length > 16) :
    routeModel root path = (.pathTooLong, 0) := by
  unfold routeModel
  rw [if_pos h]

/-- Witness for C9: a 17-segment path is rejected with zero lookups. -/
theorem C9_witness :
    (parseSegments exLongPath).length > 16 ∧
      routeModel exTree exLongPath = (.pathTooLong, 0) :=
  ⟨by decide, C9_too_long_rejected_before_lookup exTree exLongPath (by decide)⟩

/-- Counterexample to C3: the request `/Sub/pic.png` leaves two unconsumed
segments after the descent, yet the router attempts a pass-through file
lookup at `repo/Sub/pic.png` (`http.ServeFile`, server.go line 1295)
instead of responding not-found unconditionally. -/
theorem C3_counterexample_passthrough_attempted :
    (followDirs exTree (parseSegments ("/Sub/pic.png"))).2.1 = ["Sub", "pic.png"] ∧
      (routeModel exTree ("/Sub/pic.png")).1 = .passThrough ("repo/Sub/pic.png") :=
  ⟨rfl, rfl⟩

/-- C3 (amended): when the descent leaves more than one unconsumed
segment, the router renders the markdown file named by the first
unconsumed segment when one exists in the resolved directory (ignoring
the remaining segments), and otherwise attempts a pass-through file
lookup at the resolved directory's storage path joined with all
unconsumed segments; not-found can only arise from that pass-through
file server, never unconditionally. -/
theorem C3_multi_segment_route (root : DirT) (path : String) (s1 s2 : String)
    (rest : List String)
    (hlen : ¬((parseSegments path).length > 16))
    (hrest : (followDirs root (parseSegments path)).2.1 = s1 :: s2 :: rest) :
    (routeModel root path).1 =
      match alLookup s1 (followDirs root (parseSegments path)).1.files with
      | some f => .fileView (followDirs root (parseSegments path)).1 f
      | none => .passThrough (joinPath (followDirs root (parseSegments path)).1.fsPath
          (s1 :: s2 :: rest)) := by
  unfold routeModel
  rw [if_neg hlen]
  dsimp only []
  rw [hrest]
  dsimp only []
  cases halk : alLookup s1 (followDirs root (parseSegments path)).1.files with
  | some f => rfl
  | none => rfl

/-- Witness for C3 at a concrete tree and path with two unconsumed
segments resolving to a pass-through. -/
theorem C3_witness :
    ¬((parseSegments ("/Sub/pic.png")).length > 16) ∧
      (followDirs exTree (parseSegments ("/Sub/pic.png"))).2.1 = ["Sub", "pic.png"] ∧
      (routeModel exTree ("/Sub/pic.png")).1 = .passThrough ("repo/Sub/pic.png") := by
  refine ⟨by decide, rfl, ?_⟩
  have h := C3_multi_segment_route exTree ("/Sub/pic.png") ("Sub") ("pic.png") []
    (by decide) rfl
  rw [h]
  rfl

/-- Counterexample to C1: when the root read fails, `Server.Reload`
panics with the error (server.go line 1427) — the failure is not an error
returned to the caller. -/
theorem C1_counterexample_reload_panics :
    (reloadModel exRender exServer exBadFs).1 = .panicked ("boom") ∧
      (reloadModel exRender exServer exBadFs).1 ≠ .returnedErr ("boom") :=
  ⟨rfl, by decide⟩

/-- C1 (amended): if `Dir.Load` fails inside `Server.Reload`, the reload
panics with that error instead of returning it; the previously published
`Server.Root` and `Server.Reader` are not modified, so the prior (tree,
snapshot) pair remains in place (the panic escapes to the caller's
runtime — recovered and logged by Go's HTTP server when the reload is
webhook-triggered, fatal at process start-up). -/
theorem C1_reload_panic_keeps_state (render : String → String) (s : ServerState)
    (fs : FsNode) (e : String)
    (h : loadDir render s.fsDir [] s.rootTitle ("/") fs = .error e) :
    reloadModel render s fs = (.panicked e, s) := by
  unfold reloadModel
  rw [h]

/-- Witness for C1: a failing root read makes the reload panic and leaves
the server state unchanged. -/
theorem C1_witness :
    loadDir exRender (exServer).fsDir [] (exServer).rootTitle ("/") exBadFs = .error ("boom") ∧
      reloadModel exRender exServer exBadFs = (.panicked ("boom"), exServer) :=
  ⟨rfl, C1_reload_panic_keeps_state exRender exServer exBadFs ("boom") rfl⟩

/-- Counterexample to C2: on the empty input — zero query words — the
model of `Server.search` still invokes the snapshot search machinery
(exactly once; `srv.Reader.Search` on server.go line 1370 runs
unconditionally), refuting the claimed short-circuit, which would perform
zero invocations. -/
theorem C2_counterexample_reader_invoked :
    (searchModel (fun _ => [exMatch]) ("")).2 = 1 ∧
      ¬((searchModel (fun _ => [exMatch]) ("")).2 = 0) :=
  ⟨rfl, by decide⟩

/-- C2 (amended): for every input whose normalization produces zero query
words, `Server.search` builds a zero-clause conjunctive query and still
invokes the snapshot search once with it — there is no short-circuit; the
returned match list is whatever the engine returns for that query, which
is empty under bluge's match-none semantics for boolean queries with no
clauses (taken as a hypothesis on the abstract reader), even when the
index is non-empty. -/
theorem C2_zero_words_engine_empty (input : String)
    (reader : SearchRequest → List DocumentMatch)
    (hw : searchWords input = [])
    (hreader : reader ⟨10, ⟨[]⟩, true⟩ = []) :
    searchModel reader input = ([], 1) := by
  unfold searchModel
  rw [hw]
  show (reader ⟨10, ⟨[]⟩, true⟩, 1) = ([], 1)
  rw [hreader]

/-- Witness for C2: the empty input with a match-none-conforming reader
yields the empty list after one engine invocation. -/
theorem C2_witness :
    searchWords ("") = [] ∧ searchModel (fun _ => []) ("") = ([], 1) :=
  ⟨rfl, C2_zero_words_engine_empty ("") (fun _ => []) rfl rfl⟩

/-- Counterexample to C5: on seventeen é (17 characters, 34 bytes) the
code drops the single word (34 bytes exceed the 32-byte limit of
`len(word) <= 32`), while the claimed character-counted pipeline keeps it
(17 characters are within 32): `Server.search` does not normalize by
character counts. -/
theorem C5_counterexample_byte_limits :
    searchWords eAcute17 = [] ∧ searchWordsSpecChars eAcute17 = [eAcute17] ∧
      searchWords eAcute17 ≠ searchWordsSpecChars eAcute17 :=
  ⟨by decide, by decide, by decide⟩

/-- C5 (amended): `Server.search` normalizes its input in the claimed
order — truncate to the first 128 bytes; lowercase; split on whitespace
keeping at most the first 4 words in input order; drop any word longer
than 32 bytes; deduplicate the surviving words — with both length limits
counted in bytes (Go `len` on strings), not characters. -/
theorem C5_search_normalization_bytes (input : String) :
    searchWords input = searchWordsSpecBytes input := by
  unfold searchWords searchWordsSpecBytes
  dsimp only []
  rw [searchWordsCL_eq]

/-- C4: `Slugify` is total (a total function of its argument by
construction) and idempotent — `Slugify (Slugify s) = Slugify s` for
every string `s`; furthermore `Slugify "" = ""` and
`Slugify "Café Déjà-vu" = "cafe-deja-vu"`. -/
theorem C4_slugify_total_idempotent :
    (∀ s : String, Slugify (Slugify s) = Slugify s) ∧
      Slugify ("") = ("") ∧ Slugify ("Café Déjà-vu") = ("cafe-deja-vu") := by
  refine ⟨fun s => ?_, by decide, by decide⟩
  show String.mk (slugifyCL (slugifyCL s.data)) = String.mk (slugifyCL s.data)
  rw [slugifyCL_idem]

/-- Counterexample to C8: reloading from a content root containing only a
hidden entry succeeds and publishes a root directory with zero children —
an empty Directory exists in the published tree, at its root (the
emptiness check of server.go line 1093 guards only subdirectories). -/
theorem C8_counterexample_empty_root_published :
    (reloadModel exRender exServer exHiddenOnlyFs).1 = .ok ∧
      ((reloadModel exRender exServer exHiddenOnlyFs).2.root.map treeHasEmptyDir)
        = some true :=
  ⟨rfl, rfl⟩

/-- C8 (amended): in every successfully loaded tree, every directory
strictly below the loaded root (every member of a `Subdirs` map) has at
least one child, so empty directories are omitted from their parent's
subdirectory map; an empty directory's load contributes no index
documents; and the entry list is built exactly from the kept maps, so an
omitted directory appears in no entry list either.  Only the root itself
may be empty and published (see the counterexample). -/
theorem C8_empty_dirs_omitted (render : String → String) (fsPath : String)
    (pathTitles : List String) (title url : String) (fs : FsNode) (d : DirT)
    (docs : List IndexDoc)
    (h : loadDir render fsPath pathTitles title url fs = .ok (d, docs)) :
    allProperDirsNonempty d = true ∧ (dirIsEmpty d = true → docs = []) ∧
      d.entryList = mkEntryList d.subdirs d.files :=
  (load_inv render).1 fsPath pathTitles title url fs d docs h

/-- Witness for C8 on a concrete content root with an empty and a
non-empty subdirectory. -/
theorem C8_witness :
    loadDir exRender ("repo") [] ("Home") ("/") exFs = .ok ((exLoaded).1, (exLoaded).2) ∧
      allProperDirsNonempty (exLoaded).1 = true ∧
      (dirIsEmpty (exLoaded).1 = true → (exLoaded).2 = []) ∧
      (exLoaded).1.entryList = mkEntryList (exLoaded).1.subdirs (exLoaded).1.files := by
  have h : loadDir exRender ("repo") [] ("Home") ("/") exFs = .ok ((exLoaded).1, (exLoaded).2) :=
    rfl
  exact ⟨h, C8_empty_dirs_omitted exRender ("repo") [] ("Home") ("/") exFs (exLoaded).1
    (exLoaded).2 h⟩

end Markdump
